import Mathlib

/-!
# Verification of the datafusion-statrs vectorized UDF shim

A shallow embedding of the repository's generic scalar-UDF wrappers
(`src/utils/continuous2f.rs`, `continuous3f.rs`, `discrete4u.rs`,
`discrete1u2f.rs`, …), the per-function-kind evaluators
(`src/utils/evaluator2f.rs`, `evaluator3f.rs`, `evaluator2u1f.rs`),
the parameter factories (`src/utils/factory2f.rs`, `factory1u1f.rs`),
and the registration helper (`src/utils/register.rs`).

64-bit floats are modelled as either NaN or an exact rational (the
shim itself performs no float arithmetic: it only moves values between
columns and the statistics library, and writes the distinguished NaN
value for null rows).  Unsigned 64-bit integers are modelled by `Nat`
(the shim performs no arithmetic on them).  Fallible operations return
`Except`; a Rust panic (a failed `expect` cast or a failed defensive
`assert_eq!` length check) is modelled by the outer `Option` layer of
`invokeWithArgs`, with `none` standing for a panic.
-/

namespace DFStatrs

/-- Model of an `f64` value: NaN or a real number (modelled exactly as a
rational, which suffices for every value the shim itself produces). -/
inductive F where
  | nan : F
  | val : ℚ → F
deriving DecidableEq, Repr, Inhabited

/-- A cell of an Arrow `Float64Array`: `none` is a null entry. -/
abbrev Cell := Option F

/-- A cell of an Arrow `UInt64Array`: `none` is a null entry. -/
abbrev UCell := Option Nat

/-- A columnar argument array, as handed over by the host engine. -/
inductive Column where
  | f64 : List Cell → Column
  | u64 : List UCell → Column
deriving DecidableEq, Repr

/-- Embeds `datafusion::common::cast::as_float64_array`: succeeds exactly on a
`Float64` column; the wrappers call it under `.expect("cast failed")`,
so `none` here corresponds to a panic at the call site. -/
def as_float64_array : Column → Option (List Cell)
  | .f64 cs => some cs
  | _ => none

/-- Embeds `datafusion::common::cast::as_uint64_array` (see `as_float64_array`). -/
def as_uint64_array : Column → Option (List UCell)
  | .u64 cs => some cs
  | _ => none

/-- Validation error of the statistics library for the Gamma distribution
(`statrs::distribution::GammaError`). -/
inductive GammaError where
  | shapeInvalid : GammaError
  | rateInvalid : GammaError
deriving DecidableEq, Repr

/-- Validation error of the statistics library for the Binomial
distribution (`statrs::distribution::BinomialError`). -/
inductive BinomialError where
  | probabilityInvalid : BinomialError
deriving DecidableEq, Repr

/-- A distribution-specific validation error of the statistics library. -/
inductive StatsError where
  | gamma : GammaError → StatsError
  | binomial : BinomialError → StatsError
deriving DecidableEq, Repr

/-- The slice of `datafusion::error::DataFusionError` this code touches:
`External` wraps a boxed error from the statistics library; `Execution`
stands for every other engine-side error variant. -/
inductive DataFusionError where
  | External : StatsError → DataFusionError
  | Execution : String → DataFusionError
deriving DecidableEq, Repr

/-- Embeds `datafusion::arrow::datatypes::DataType` (the variants this crate uses). -/
inductive DataType where
  | Float64 : DataType
  | UInt64 : DataType
deriving DecidableEq, Repr

/-- Embeds `datafusion::logical_expr::Volatility`. -/
inductive Volatility where
  | Immutable : Volatility
  | Stable : Volatility
  | Volatile : Volatility
deriving DecidableEq, Repr

/-- The shape of a `datafusion::logical_expr::Signature`: `uniform n ts`
accepts exactly `n` arguments, each drawn from `ts`; `exact ts` accepts
exactly the listed types at the listed positions. -/
inductive TypeSignature where
  | uniform : Nat → List DataType → TypeSignature
  | exact : List DataType → TypeSignature
deriving DecidableEq, Repr

/-- Embeds `datafusion::logical_expr::Signature`: a type signature with a
volatility classification. -/
structure Signature where
  typeSignature : TypeSignature
  volatility : Volatility
deriving DecidableEq, Repr

/-- Embeds `Signature::uniform(n, ts, v)`. -/
def Signature.uniform (n : Nat) (ts : List DataType) (v : Volatility) : Signature :=
  ⟨TypeSignature.uniform n ts, v⟩

/-- Embeds `Signature.exact(ts, v)`. -/
def Signature.exact (ts : List DataType) (v : Volatility) : Signature :=
  ⟨TypeSignature.exact ts, v⟩

/-- Declared number of arguments of a type signature. -/
def TypeSignature.arity : TypeSignature → Nat
  | .uniform n _ => n
  | .exact ts => ts.length

/-- The set of argument types a type signature draws from. -/
def TypeSignature.allowedTypes : TypeSignature → List DataType
  | .uniform _ ts => ts
  | .exact ts => ts

/-- Decidable equality of `Except` results, for concrete evaluation of
the embedded operations. -/
instance exceptDecEq {ε α : Type} [DecidableEq ε] [DecidableEq α] :
    DecidableEq (Except ε α)
  | .error e, .error e' =>
    if h : e = e' then .isTrue (by rw [h])
    else .isFalse (fun hh => h (by cases hh; rfl))
  | .error _, .ok _ => .isFalse (fun hh => by cases hh)
  | .ok _, .error _ => .isFalse (fun hh => by cases hh)
  | .ok a, .ok b =>
    if h : a = b then .isTrue (by rw [h])
    else .isFalse (fun hh => h (by cases hh; rfl))

/-- Left-to-right, short-circuiting collection of row results into a
column result: the Rust `collect::<Result<Float64Array, DataFusionError>>()`
over per-row `Result<Option<f64>, DataFusionError>` items (an `Ok(None)`
item would become a null output entry). -/
def collectResult {ε α : Type} : List (Except ε α) → Except ε (List α)
  | [] => .ok []
  | r :: rs =>
    match r with
    | .error e => .error e
    | .ok v => (collectResult rs).map (fun l => v :: l)

/-! ## Distributions and factories

The mathematical content lives in the external `statrs` library; only
its constructors' validation behaviour and (for the Binomial example
scenario) its pmf/cdf/sf values are needed here. -/

/-- The Gamma distribution instance (`statrs::distribution::Gamma`). -/
structure Gamma where
  shape : ℚ
  rate : ℚ
deriving DecidableEq, Repr

/-- Modelled from the spec: the external statistics library's
`Gamma::new(shape, rate)` is not part of this repository; per §4.1/§8 it
requires `shape > 0` and `rate > 0`, rejecting an invalid (NaN or
non-positive) shape with a shape-invalid error and an invalid rate with
a distinct rate-invalid error. -/
def Gamma.new (shape rate : F) : Except GammaError Gamma :=
  match shape, rate with
  | .nan, _ => .error .shapeInvalid
  | .val _, .nan => .error .rateInvalid
  | .val s, .val r =>
    if s ≤ 0 then .error .shapeInvalid
    else if r ≤ 0 then .error .rateInvalid
    else .ok ⟨s, r⟩

/-- Embeds `impl Factory2F for Gamma` (src/utils/factory2f.rs lines 38–42):
delegate to `Gamma::new` and wrap its error in
`DataFusionError::External`. -/
def Gamma.make (p1 p2 : F) : Except DataFusionError Gamma :=
  (Gamma.new p1 p2).mapError (fun e => .External (.gamma e))

/-- The Binomial distribution instance
(`statrs::distribution::Binomial`), with success probability `p` and
trial count `n`. -/
structure Binomial where
  p : ℚ
  n : Nat
deriving DecidableEq, Repr

/-- Modelled from the spec: the external statistics library's
`Binomial::new(p, n)` is not part of this repository; per §4.1 it
requires `0 ≤ p ≤ 1`, rejecting a NaN or out-of-range probability with
a probability-invalid error. -/
def Binomial.new (p : F) (n : Nat) : Except BinomialError Binomial :=
  match p with
  | .nan => .error .probabilityInvalid
  | .val q =>
    if q < 0 ∨ 1 < q then .error .probabilityInvalid
    else .ok ⟨q, n⟩

/-- Embeds `impl Factory1U1F for Binomial` (src/utils/factory1u1f.rs): note the
argument swap, `make(p1, p2)` calls `Binomial::new(p2, p1)`; the error
is wrapped in `DataFusionError::External`. -/
def Binomial.make (p1 : Nat) (p2 : F) : Except DataFusionError Binomial :=
  (Binomial.new p2 p1).mapError (fun e => .External (.binomial e))

/-- Modelled from the spec: the external statistics library's Binomial
probability mass function, `pmf(x) = C(n, x) · p^x · (1-p)^(n-x)` for
`0 ≤ x ≤ n` and `0` beyond `n` (exact rational arithmetic stands in for
the library's floating-point evaluation). -/
def Binomial.pmfQ (d : Binomial) (x : Nat) : ℚ :=
  if d.n < x then 0 else (d.n.choose x : ℚ) * d.p ^ x * (1 - d.p) ^ (d.n - x)

/-- Modelled from the spec: the Binomial cumulative distribution
function, the running sum of `pmfQ` up to and including `x`. -/
def Binomial.cdfQ (d : Binomial) : Nat → ℚ
  | 0 => d.pmfQ 0
  | x + 1 => d.cdfQ x + d.pmfQ (x + 1)

/-- Embeds `pmf` as returned to the shim (a 64-bit float value). -/
def Binomial.pmf (d : Binomial) (x : Nat) : F := .val (d.pmfQ x)

/-- Embeds `cdf` as returned to the shim. -/
def Binomial.cdf (d : Binomial) (x : Nat) : F := .val (d.cdfQ x)

/-- Modelled from the spec: the survival function, defined as `1 − cdf`
by the underlying library (spec §4.2). -/
def Binomial.sf (d : Binomial) (x : Nat) : F := .val (1 - d.cdfQ x)

/-! ## Evaluators

The Rust evaluators are generic over a distribution type `D` carrying a
factory (`make`) and the statistic's method; the embedding takes those
two operations as explicit function arguments. -/

/-- Embeds `PdfEvaluator3F::eval` (src/utils/evaluator3f.rs lines 20–25):
construct the distribution from the two parameters — propagating a
construction error — then evaluate its pdf at `x`. -/
def PdfEvaluator3F.eval {D : Type} (make : F → F → Except DataFusionError D)
    (pdf : D → F → F) (x p1 p2 : F) : Except DataFusionError (Option F) :=
  match make p1 p2 with
  | .error e => .error e
  | .ok d => .ok (some (pdf d x))

/-- Embeds `CdfEvaluator3F::eval` (src/utils/evaluator3f.rs lines 40–45). -/
def CdfEvaluator3F.eval {D : Type} (make : F → F → Except DataFusionError D)
    (cdf : D → F → F) (x p1 p2 : F) : Except DataFusionError (Option F) :=
  match make p1 p2 with
  | .error e => .error e
  | .ok d => .ok (some (cdf d x))

/-- Embeds `PdfEvaluator2F::eval` (src/utils/evaluator2f.rs lines 20–25). -/
def PdfEvaluator2F.eval {D : Type} (make : F → Except DataFusionError D)
    (pdf : D → F → F) (x p : F) : Except DataFusionError (Option F) :=
  match make p with
  | .error e => .error e
  | .ok d => .ok (some (pdf d x))

/-- Embeds `CdfEvaluator2F::eval` (src/utils/evaluator2f.rs lines 35–40). -/
def CdfEvaluator2F.eval {D : Type} (make : F → Except DataFusionError D)
    (cdf : D → F → F) (x p : F) : Except DataFusionError (Option F) :=
  match make p with
  | .error e => .error e
  | .ok d => .ok (some (cdf d x))

/-- Embeds `SfEvaluator2F::eval` (src/utils/evaluator2f.rs lines 50–55). -/
def SfEvaluator2F.eval {D : Type} (make : F → Except DataFusionError D)
    (sf : D → F → F) (x p : F) : Except DataFusionError (Option F) :=
  match make p with
  | .error e => .error e
  | .ok d => .ok (some (sf d x))

/-- Embeds `PmfEvaluator2U1F::eval` (src/utils/evaluator2u1f.rs lines 17–22):
`eval(x, n, p)` calls `D::make(n, p)` then `pmf(x)`. -/
def PmfEvaluator2U1F.eval {D : Type} (make : Nat → F → Except DataFusionError D)
    (pmf : D → Nat → F) (x n : Nat) (p : F) : Except DataFusionError (Option F) :=
  match make n p with
  | .error e => .error e
  | .ok d => .ok (some (pmf d x))

/-- Embeds `CdfEvaluator2U1F::eval` (src/utils/evaluator2u1f.rs lines 41–46). -/
def CdfEvaluator2U1F.eval {D : Type} (make : Nat → F → Except DataFusionError D)
    (cdf : D → Nat → F) (x n : Nat) (p : F) : Except DataFusionError (Option F) :=
  match make n p with
  | .error e => .error e
  | .ok d => .ok (some (cdf d x))

/-- Embeds `SfEvaluator2U1F::eval` (src/utils/evaluator2u1f.rs lines 53–58). -/
def SfEvaluator2U1F.eval {D : Type} (make : Nat → F → Except DataFusionError D)
    (sf : D → Nat → F) (x n : Nat) (p : F) : Except DataFusionError (Option F) :=
  match make n p with
  | .error e => .error e
  | .ok d => .ok (some (sf d x))

/-! ## Vectorized function wrappers

Each Rust wrapper is a `ScalarUDFImpl` generic over an evaluator type;
the embedding carries the evaluator as a function argument of
`invokeWithArgs`.  The outer `Option` models panics: a failed
`expect("cast failed")`, an out-of-bounds argument index, or a failed
defensive `assert_eq!` on lengths. -/

/-- Embeds `Continuous2F` (src/utils/continuous2f.rs). -/
structure Continuous2F where
  name : String
  signature : Signature
deriving DecidableEq, Repr

/-- Embeds `Continuous2F::new` (src/utils/continuous2f.rs lines 22–30). -/
def Continuous2F.new (name : String) : Continuous2F :=
  { name := name,
    signature := Signature.uniform 2 [DataType.Float64] Volatility.Immutable }

/-- Embeds `Continuous2F::return_type` (src/utils/continuous2f.rs lines 45–47). -/
def Continuous2F.returnType (_argTypes : List DataType) :
    Except DataFusionError DataType :=
  .ok DataType.Float64

/-- The per-row match of `Continuous2F::invoke_with_args`: all values
present feeds the evaluator, any null yields NaN. -/
def Continuous2F.rowEval (eval : F → F → Except DataFusionError (Option F)) :
    Cell × Cell → Except DataFusionError (Option F)
  | (some x, some p) => eval x p
  | _ => .ok (some F.nan)

/-- Embeds `Continuous2F::invoke_with_args` (src/utils/continuous2f.rs lines
49–65): cast the two columns to `Float64`, defensively assert equal
lengths, then map the per-row evaluation over the zipped rows,
short-circuiting on the first evaluator error. -/
def Continuous2F.invokeWithArgs (eval : F → F → Except DataFusionError (Option F))
    (args : List Column) : Option (Except DataFusionError (List Cell)) := do
  let xs ← (args.get? 0).bind as_float64_array
  let ps ← (args.get? 1).bind as_float64_array
  if xs.length = ps.length then
    some (collectResult ((xs.zip ps).map (Continuous2F.rowEval eval)))
  else
    none

/-- Embeds `Continuous3F` (src/utils/continuous3f.rs). -/
structure Continuous3F where
  name : String
  signature : Signature
deriving DecidableEq, Repr

/-- Embeds `Continuous3F::new` (src/utils/continuous3f.rs lines 17–23). -/
def Continuous3F.new (name : String) : Continuous3F :=
  { name := name,
    signature := Signature.uniform 3 [DataType.Float64] Volatility.Immutable }

/-- Embeds `Continuous3F::return_type` (src/utils/continuous3f.rs lines 39–41). -/
def Continuous3F.returnType (_argTypes : List DataType) :
    Except DataFusionError DataType :=
  .ok DataType.Float64

/-- The per-row match of `Continuous3F::invoke_with_args`. -/
def Continuous3F.rowEval (eval : F → F → F → Except DataFusionError (Option F)) :
    (Cell × Cell) × Cell → Except DataFusionError (Option F)
  | ((some x, some p1), some p2) => eval x p1 p2
  | _ => .ok (some F.nan)

/-- Embeds `Continuous3F::invoke_with_args` (src/utils/continuous3f.rs lines
43–62). -/
def Continuous3F.invokeWithArgs
    (eval : F → F → F → Except DataFusionError (Option F))
    (args : List Column) : Option (Except DataFusionError (List Cell)) := do
  let xs ← (args.get? 0).bind as_float64_array
  let p1s ← (args.get? 1).bind as_float64_array
  let p2s ← (args.get? 2).bind as_float64_array
  if xs.length = p1s.length ∧ xs.length = p2s.length then
    some (collectResult (((xs.zip p1s).zip p2s).map (Continuous3F.rowEval eval)))
  else
    none

/-- Embeds `Continuous4F::new` (src/utils/continuous4f.rs lines 17–23). -/
def Continuous4F.new (name : String) : String × Signature :=
  (name, Signature.uniform 4 [DataType.Float64] Volatility.Immutable)

/-- Embeds `Continuous4F::return_type` (src/utils/continuous4f.rs). -/
def Continuous4F.returnType (_argTypes : List DataType) :
    Except DataFusionError DataType :=
  .ok DataType.Float64

/-- Embeds `Continuous1F1U::new` (src/utils/continuous1f1u.rs lines 22–33). -/
def Continuous1F1U.new (name : String) : String × Signature :=
  (name, Signature.exact [DataType.Float64, DataType.UInt64] Volatility.Immutable)

/-- Embeds `Continuous1F1U::return_type` (src/utils/continuous1f1u.rs). -/
def Continuous1F1U.returnType (_argTypes : List DataType) :
    Except DataFusionError DataType :=
  .ok DataType.Float64

/-- Embeds `Continuous1F1U1F::new` (src/utils/continuous1f1u1f.rs lines 22–33). -/
def Continuous1F1U1F.new (name : String) : String × Signature :=
  (name, Signature.exact [DataType.Float64, DataType.UInt64, DataType.Float64]
    Volatility.Immutable)

/-- Embeds `Continuous1F1U1F::return_type` (src/utils/continuous1f1u1f.rs). -/
def Continuous1F1U1F.returnType (_argTypes : List DataType) :
    Except DataFusionError DataType :=
  .ok DataType.Float64

/-- Embeds `Discrete1U1F::new` (src/utils/discrete1u1f.rs lines 22–30). -/
def Discrete1U1F.new (name : String) : String × Signature :=
  (name, Signature.exact [DataType.UInt64, DataType.Float64] Volatility.Immutable)

/-- Embeds `Discrete1U1F::return_type` (src/utils/discrete1u1f.rs). -/
def Discrete1U1F.returnType (_argTypes : List DataType) :
    Except DataFusionError DataType :=
  .ok DataType.Float64

/-- Embeds `Discrete1U2F` (src/utils/discrete1u2f.rs). -/
structure Discrete1U2F where
  name : String
  signature : Signature
deriving DecidableEq, Repr

/-- Embeds `Discrete1U2F::new` (src/utils/discrete1u2f.rs lines 22–30). -/
def Discrete1U2F.new (name : String) : Discrete1U2F :=
  { name := name,
    signature := Signature.exact
      [DataType.UInt64, DataType.Float64, DataType.Float64] Volatility.Immutable }

/-- Embeds `Discrete1U2F::return_type` (src/utils/discrete1u2f.rs lines 45–47). -/
def Discrete1U2F.returnType (_argTypes : List DataType) :
    Except DataFusionError DataType :=
  .ok DataType.Float64

/-- The per-row match of `Discrete1U2F::invoke_with_args`. -/
def Discrete1U2F.rowEval (eval : Nat → F → F → Except DataFusionError (Option F)) :
    (UCell × Cell) × Cell → Except DataFusionError (Option F)
  | ((some x, some p1), some p2) => eval x p1 p2
  | _ => .ok (some F.nan)

/-- Embeds `Discrete1U2F::invoke_with_args` (src/utils/discrete1u2f.rs lines
49–68): cast `[UInt64, Float64, Float64]` columns. -/
def Discrete1U2F.invokeWithArgs
    (eval : Nat → F → F → Except DataFusionError (Option F))
    (args : List Column) : Option (Except DataFusionError (List Cell)) := do
  let xs ← (args.get? 0).bind as_uint64_array
  let p1s ← (args.get? 1).bind as_float64_array
  let p2s ← (args.get? 2).bind as_float64_array
  if xs.length = p1s.length ∧ xs.length = p2s.length then
    some (collectResult (((xs.zip p1s).zip p2s).map (Discrete1U2F.rowEval eval)))
  else
    none

/-- Embeds `Discrete4U` (src/utils/discrete4u.rs). -/
structure Discrete4U where
  name : String
  signature : Signature
deriving DecidableEq, Repr

/-- Embeds `Discrete4U::new` (src/utils/discrete4u.rs lines 16–24). -/
def Discrete4U.new (name : String) : Discrete4U :=
  { name := name,
    signature := Signature.uniform 4 [DataType.UInt64] Volatility.Immutable }

/-- Embeds `Discrete4U::return_type` (src/utils/discrete4u.rs lines 39–41). -/
def Discrete4U.returnType (_argTypes : List DataType) :
    Except DataFusionError DataType :=
  .ok DataType.Float64

/-- The per-row match of `Discrete4U::invoke_with_args`. -/
def Discrete4U.rowEval
    (eval : Nat → Nat → Nat → Nat → Except DataFusionError (Option F)) :
    ((UCell × UCell) × UCell) × UCell → Except DataFusionError (Option F)
  | (((some x, some p1), some p2), some p3) => eval x p1 p2 p3
  | _ => .ok (some F.nan)

/-- Embeds `Discrete4U::invoke_with_args` (src/utils/discrete4u.rs lines
43–65): cast four `UInt64` columns, assert equal lengths, map rows. -/
def Discrete4U.invokeWithArgs
    (eval : Nat → Nat → Nat → Nat → Except DataFusionError (Option F))
    (args : List Column) : Option (Except DataFusionError (List Cell)) := do
  let xs ← (args.get? 0).bind as_uint64_array
  let p1s ← (args.get? 1).bind as_uint64_array
  let p2s ← (args.get? 2).bind as_uint64_array
  let p3s ← (args.get? 3).bind as_uint64_array
  if xs.length = p1s.length ∧ xs.length = p2s.length ∧ xs.length = p3s.length then
    some (collectResult ((((xs.zip p1s).zip p2s).zip p3s).map (Discrete4U.rowEval eval)))
  else
    none

/-- Modelled from the spec: the `Discrete2U1F` wrapper used by the
Binomial module (`src/distribution/binomial.rs` imports
`crate::utils::discrete2u1f::Discrete2U1F`, whose source file is not
under src/).  Per spec §4.3 it is the arity-3 wrapper over columns
`[UInt64, UInt64, Float64]` (evaluation point `x`, count `n`,
probability `p`), built exactly like its sibling `Discrete1U2F`. -/
structure Discrete2U1F where
  name : String
  signature : Signature
deriving DecidableEq, Repr

/-- Modelled from the spec: `Discrete2U1F::new`, declaring the exact
signature `[UInt64, UInt64, Float64]` with immutable volatility. -/
def Discrete2U1F.new (name : String) : Discrete2U1F :=
  { name := name,
    signature := Signature.exact
      [DataType.UInt64, DataType.UInt64, DataType.Float64] Volatility.Immutable }

/-- Modelled from the spec: `Discrete2U1F::return_type`, always
`Float64`. -/
def Discrete2U1F.returnType (_argTypes : List DataType) :
    Except DataFusionError DataType :=
  .ok DataType.Float64

/-- Modelled from the spec: the per-row match of
`Discrete2U1F::invoke_with_args` (all present → evaluator, any null →
NaN), as for every other wrapper. -/
def Discrete2U1F.rowEval (eval : Nat → Nat → F → Except DataFusionError (Option F)) :
    (UCell × UCell) × Cell → Except DataFusionError (Option F)
  | ((some x, some p1), some p2) => eval x p1 p2
  | _ => .ok (some F.nan)

/-- Modelled from the spec: `Discrete2U1F::invoke_with_args`, casting
`[UInt64, UInt64, Float64]` columns, asserting equal lengths, then
mapping the per-row evaluation in order. -/
def Discrete2U1F.invokeWithArgs
    (eval : Nat → Nat → F → Except DataFusionError (Option F))
    (args : List Column) : Option (Except DataFusionError (List Cell)) := do
  let xs ← (args.get? 0).bind as_uint64_array
  let p1s ← (args.get? 1).bind as_uint64_array
  let p2s ← (args.get? 2).bind as_float64_array
  if xs.length = p1s.length ∧ xs.length = p2s.length then
    some (collectResult (((xs.zip p1s).zip p2s).map (Discrete2U1F.rowEval eval)))
  else
    none

/-! ## Registration -/

/-- A registered function descriptor
(`datafusion::logical_expr::ScalarUDF`): its declared name and
signature. -/
structure ScalarUDF where
  name : String
  signature : Signature
deriving DecidableEq, Repr

/-- Modelled from the spec: the host engine's function namespace
(`datafusion::execution::FunctionRegistry`, not part of this
repository): a mutable map from name to descriptor. -/
def Registry := String → Option ScalarUDF

/-- Modelled from the spec: `FunctionRegistry::register_udf` installs
the descriptor under its declared name and returns the previously
registered descriptor of that name, if any (the previous entry is
replaced, never an error). -/
def Registry.registerUDF (reg : Registry) (udf : ScalarUDF) :
    Registry × Option ScalarUDF :=
  (fun n => if n = udf.name then some udf else reg n, reg udf.name)

/-- The loop body of `register` (src/utils/register.rs lines 10–16):
install each function in order; when an existing UDF was displaced,
emit a warning naming it.  Returns the final registry and the warning
messages in emission order. -/
def registerAux (reg : Registry) : List ScalarUDF → Registry × List String
  | [] => (reg, [])
  | f :: rest =>
    let step := Registry.registerUDF reg f
    let next := registerAux step.1 rest
    (next.1,
      (match step.2 with
       | some g => ["Overwrite existing UDF: " ++ g.name]
       | none => []) ++ next.2)

/-- Embeds `register` (src/utils/register.rs lines 6–18): install all
functions, warning on each overwrite; the result value is the `Result`
returned to the caller. -/
def register (reg : Registry) (fs : List ScalarUDF) :
    Except DataFusionError Unit × Registry × List String :=
  let out := registerAux reg fs
  (.ok (), out.1, out.2)

/-! ## The Binomial module (src/distribution/binomial.rs)

`type Pmf = Discrete2U1F<PmfEvaluator2U1F<Binomial>>` and friends:
the monomorphized evaluators handed to the wrapper. -/

/-- The evaluator of `binomial_pmf`
(`PmfEvaluator2U1F<Binomial>::eval`). -/
def binomialPmfEval : Nat → Nat → F → Except DataFusionError (Option F) :=
  PmfEvaluator2U1F.eval Binomial.make Binomial.pmf

/-- The evaluator of `binomial_cdf`
(`CdfEvaluator2U1F<Binomial>::eval`). -/
def binomialCdfEval : Nat → Nat → F → Except DataFusionError (Option F) :=
  CdfEvaluator2U1F.eval Binomial.make Binomial.cdf

/-- The evaluator of `binomial_sf`
(`SfEvaluator2U1F<Binomial>::eval`). -/
def binomialSfEval : Nat → Nat → F → Except DataFusionError (Option F) :=
  SfEvaluator2U1F.eval Binomial.make Binomial.sf

/-! ## Generic facts about the row-collection loop -/

theorem collectResult_eq_ok_iff {ε α : Type} (rs : List (Except ε α)) (out : List α) :
    collectResult rs = .ok out ↔ rs = out.map Except.ok := by
  induction rs generalizing out with
  | nil =>
    cases out <;> simp [collectResult]
  | cons r rs ih =>
    cases r with
    | error e =>
      cases out <;> simp [collectResult]
    | ok v =>
      cases out with
      | nil =>
        simp only [collectResult, List.map_nil]
        constructor
        · intro h
          cases hc : collectResult rs <;> simp [hc, Except.map] at h
        · intro h
          exact absurd h (by simp)
      | cons w out =>
        simp only [collectResult, List.map_cons]
        constructor
        · intro h
          cases hc : collectResult rs <;> simp [hc, Except.map] at h
          rcases h with ⟨hv, hout⟩
          subst hv hout
          simp [(ih _).mp hc]
        · intro h
          rcases List.cons_eq_cons.mp h with ⟨hv, hrs⟩
          cases hv
          rw [(ih out).mpr hrs]
          rfl

theorem collectResult_eq_error_iff {ε α : Type} (rs : List (Except ε α)) (e : ε) :
    collectResult rs = .error e ↔
      ∃ (vs : List α) (rest : List (Except ε α)),
        rs = vs.map Except.ok ++ .error e :: rest := by
  induction rs with
  | nil =>
    simp only [collectResult]
    constructor
    · intro h
      cases h
    · rintro ⟨vs, rest, h⟩
      cases vs <;> simp at h
  | cons r rs ih =>
    cases r with
    | error e' =>
      simp only [collectResult]
      constructor
      · intro h
        cases h
        exact ⟨[], rs, rfl⟩
      · rintro ⟨vs, rest, h⟩
        cases vs with
        | nil => cases h; rfl
        | cons v vs => simp at h
    | ok v =>
      simp only [collectResult]
      constructor
      · intro h
        cases hc : collectResult rs <;> rw [hc] at h <;> simp [Except.map] at h
        cases h
        rcases ih.mp hc with ⟨vs, rest, hrs⟩
        exact ⟨v :: vs, rest, by simp [hrs]⟩
      · rintro ⟨vs, rest, h⟩
        cases vs with
        | nil => simp at h
        | cons w vs =>
          simp only [List.map_cons, List.cons_append, List.cons_eq_cons] at h
          rcases h with ⟨hv, hrs⟩
          cases hv
          rw [ih.mpr ⟨vs, rest, hrs⟩]
          rfl

/-- A short-circuited error always originates from one of the items. -/
theorem error_mem_of_collectResult_eq_error {ε α : Type}
    {rs : List (Except ε α)} {e : ε} (h : collectResult rs = .error e) :
    Except.error e ∈ rs := by
  rcases (collectResult_eq_error_iff rs e).mp h with ⟨vs, rest, hrs⟩
  subst hrs
  exact List.mem_append_right _ (List.mem_cons_self _ _)

/-- If some item is an error, collection cannot succeed. -/
theorem collectResult_ne_ok_of_mem_error {ε α : Type}
    {rs : List (Except ε α)} {e : ε} (hmem : Except.error e ∈ rs) (out : List α) :
    collectResult rs ≠ .ok out := by
  intro h
  rw [collectResult_eq_ok_iff] at h
  subst h
  rcases List.mem_map.mp hmem with ⟨v, _, hv⟩
  cases hv

/-- Inserting a row whose evaluation succeeds with value `v` at
position `a.length` inserts `v` at that position of the output (and
leaves failure behaviour unchanged). -/
theorem collectResult_map_middle {ε α β : Type} (f : β → Except ε α) (v : α)
    (a : List β) (b : List β) (r : β) (hr : f r = .ok v) :
    collectResult ((a ++ r :: b).map f) =
      Except.map (List.insertIdx a.length v) (collectResult ((a ++ b).map f)) := by
  induction a with
  | nil =>
    simp only [List.nil_append, List.map_cons, collectResult, hr, List.length_nil]
    cases hc : collectResult (b.map f) <;> simp [hc, Except.map, List.insertIdx_zero]
  | cons a0 a ih =>
    cases ha0 : f a0 with
    | error e =>
      simp [List.cons_append, collectResult, ha0, Except.map]
    | ok w =>
      simp only [List.cons_append, List.map_cons, collectResult, ha0,
        List.length_cons, List.append_eq]
      rw [ih]
      cases hc : collectResult ((a ++ b).map f) <;>
        simp [Except.map, List.insertIdx_succ_cons]

/-- Collection over a list with a distinguished row at position `i`
whose evaluation yields `v`: the row contributes `v` at position `i`
and nothing else (erasing it from the input erases `v` from the
output). -/
theorem collectResult_map_eraseIdx {ε α β : Type} {f : β → Except ε α}
    {R : List β} {i : ℕ} {r : β} {v : α}
    (hR : R.get? i = some r) (hr : f r = .ok v) :
    collectResult (R.map f) =
      Except.map (List.insertIdx i v) (collectResult ((R.eraseIdx i).map f)) := by
  have hi : i < R.length := by
    by_contra hlt
    rw [List.get?_eq_none.mpr (Nat.le_of_not_lt hlt)] at hR
    cases hR
  have hgr : R[i] = r := by
    have := List.get?_eq_get (l := R) hi
    rw [this] at hR
    simpa using hR
  have hdecomp : R = R.take i ++ r :: R.drop (i + 1) := by
    conv_lhs => rw [← List.take_append_drop i R]
    rw [List.drop_eq_getElem_cons hi, hgr]
  have hlen : (R.take i).length = i := by
    simp [List.length_take, Nat.min_eq_left (Nat.le_of_lt hi)]
  calc collectResult (R.map f)
      = collectResult ((R.take i ++ r :: R.drop (i + 1)).map f) := by
        rw [← hdecomp]
    _ = Except.map (List.insertIdx (R.take i).length v)
          (collectResult ((R.take i ++ R.drop (i + 1)).map f)) :=
        collectResult_map_middle f v _ _ _ hr
    _ = Except.map (List.insertIdx i v)
          (collectResult ((R.eraseIdx i).map f)) := by
        rw [hlen, ← List.eraseIdx_eq_take_drop_succ]

/-- Erasing a row commutes with zipping equal-length columns. -/
theorem zip_eraseIdx {α β : Type} :
    ∀ (i : ℕ) (xs : List α) (ys : List β), xs.length = ys.length →
      (xs.zip ys).eraseIdx i = (xs.eraseIdx i).zip (ys.eraseIdx i) := by
  intro i xs
  induction xs generalizing i with
  | nil =>
    intro ys h
    have : ys = [] := List.length_eq_zero.mp h.symm
    subst this
    simp
  | cons x xs ih =>
    intro ys h
    cases ys with
    | nil => simp at h
    | cons y ys =>
      cases i with
      | zero => simp
      | succ i =>
        simp only [List.zip_cons_cons, List.eraseIdx_cons_succ]
        rw [ih i ys (by simpa using h)]

/-- Unfolding `Continuous2F::invoke_with_args` on two well-typed
equal-length `Float64` columns: no panic, and the result is the
collected row map. -/
theorem Continuous2F.invoke_eq_2f (eval : F → F → Except DataFusionError (Option F))
    (xs ps : List Cell) (h : ps.length = xs.length) :
    Continuous2F.invokeWithArgs eval [.f64 xs, .f64 ps] =
      some (collectResult ((xs.zip ps).map (Continuous2F.rowEval eval))) := by
  simp [Continuous2F.invokeWithArgs, as_float64_array, h]

/-- Unfolding `Continuous3F::invoke_with_args` on three well-typed
equal-length `Float64` columns. -/
theorem Continuous3F.invoke_eq_3f
    (eval : F → F → F → Except DataFusionError (Option F))
    (xs p1s p2s : List Cell)
    (h1 : p1s.length = xs.length) (h2 : p2s.length = xs.length) :
    Continuous3F.invokeWithArgs eval [.f64 xs, .f64 p1s, .f64 p2s] =
      some (collectResult (((xs.zip p1s).zip p2s).map (Continuous3F.rowEval eval))) := by
  simp [Continuous3F.invokeWithArgs, as_float64_array, h1, h2]

/-- Unfolding `Discrete1U2F::invoke_with_args` on well-typed
equal-length columns. -/
theorem Discrete1U2F.invoke_eq_1u2f
    (eval : Nat → F → F → Except DataFusionError (Option F))
    (xs : List UCell) (p1s p2s : List Cell)
    (h1 : p1s.length = xs.length) (h2 : p2s.length = xs.length) :
    Discrete1U2F.invokeWithArgs eval [.u64 xs, .f64 p1s, .f64 p2s] =
      some (collectResult (((xs.zip p1s).zip p2s).map (Discrete1U2F.rowEval eval))) := by
  simp [Discrete1U2F.invokeWithArgs, as_uint64_array, as_float64_array, h1, h2]

/-- Unfolding `Discrete4U::invoke_with_args` on well-typed equal-length
columns. -/
theorem Discrete4U.invoke_eq_4u
    (eval : Nat → Nat → Nat → Nat → Except DataFusionError (Option F))
    (xs p1s p2s p3s : List UCell)
    (h1 : p1s.length = xs.length) (h2 : p2s.length = xs.length)
    (h3 : p3s.length = xs.length) :
    Discrete4U.invokeWithArgs eval [.u64 xs, .u64 p1s, .u64 p2s, .u64 p3s] =
      some (collectResult ((((xs.zip p1s).zip p2s).zip p3s).map (Discrete4U.rowEval eval))) := by
  simp [Discrete4U.invokeWithArgs, as_uint64_array, h1, h2, h3]

/-- Unfolding `Discrete2U1F::invoke_with_args` on well-typed
equal-length columns. -/
theorem Discrete2U1F.invoke_eq_2u1f
    (eval : Nat → Nat → F → Except DataFusionError (Option F))
    (xs p1s : List UCell) (p2s : List Cell)
    (h1 : p1s.length = xs.length) (h2 : p2s.length = xs.length) :
    Discrete2U1F.invokeWithArgs eval [.u64 xs, .u64 p1s, .f64 p2s] =
      some (collectResult (((xs.zip p1s).zip p2s).map (Discrete2U1F.rowEval eval))) := by
  simp [Discrete2U1F.invokeWithArgs, as_uint64_array, as_float64_array, h1, h2]

/-- A row of `Continuous3F` with any null cell evaluates to NaN without
consulting the evaluator. -/
theorem Continuous3F.rowEval_null_3f
    (eval : F → F → F → Except DataFusionError (Option F))
    (cx c1 c2 : Cell) (h : cx = none ∨ c1 = none ∨ c2 = none) :
    Continuous3F.rowEval eval ((cx, c1), c2) = .ok (some F.nan) := by
  rcases h with rfl | rfl | rfl
  · cases c1 <;> cases c2 <;> rfl
  · cases cx <;> cases c2 <;> rfl
  · cases cx <;> cases c1 <;> rfl

/-- A row of `Discrete4U` with any null cell evaluates to NaN without
consulting the evaluator. -/
theorem Discrete4U.rowEval_null_4u
    (eval : Nat → Nat → Nat → Nat → Except DataFusionError (Option F))
    (cx c1 c2 c3 : UCell)
    (h : cx = none ∨ c1 = none ∨ c2 = none ∨ c3 = none) :
    Discrete4U.rowEval eval (((cx, c1), c2), c3) = .ok (some F.nan) := by
  rcases h with rfl | rfl | rfl | rfl
  · cases c1 <;> cases c2 <;> cases c3 <;> rfl
  · cases cx <;> cases c2 <;> cases c3 <;> rfl
  · cases cx <;> cases c1 <;> cases c3 <;> rfl
  · cases cx <;> cases c1 <;> cases c2 <;> rfl

/-- A row of `Discrete1U2F` with any null cell evaluates to NaN without
consulting the evaluator. -/
theorem Discrete1U2F.rowEval_null_1u2f
    (eval : Nat → F → F → Except DataFusionError (Option F))
    (cx : UCell) (c1 c2 : Cell) (h : cx = none ∨ c1 = none ∨ c2 = none) :
    Discrete1U2F.rowEval eval ((cx, c1), c2) = .ok (some F.nan) := by
  rcases h with rfl | rfl | rfl
  · cases c1 <;> cases c2 <;> rfl
  · cases cx <;> cases c2 <;> rfl
  · cases cx <;> cases c1 <;> rfl

/-! ## Facts about registration -/

/-- After the registration loop, a name resolves to the last installed
function of that name, and otherwise to its previous binding. -/
theorem registerAux_lookup :
    ∀ (fs : List ScalarUDF) (reg : Registry) (name : String),
      (registerAux reg fs).1 name =
        (match fs.reverse.find? (fun f => f.name == name) with
         | some f => some f
         | none => reg name) := by
  intro fs
  induction fs with
  | nil => intro reg name; rfl
  | cons f rest ih =>
    intro reg name
    simp only [registerAux]
    rw [ih]
    rw [List.reverse_cons, List.find?_append]
    cases hf : rest.reverse.find? (fun g => g.name == name) with
    | some g => rfl
    | none =>
      cases hb : (f.name == name) with
      | true =>
        have he : name = f.name := (eq_of_beq hb).symm
        simp [Registry.registerUDF, List.find?, hb, he]
      | false =>
        have hne : ¬ name = f.name := fun h => by simp [h] at hb
        simp [Registry.registerUDF, List.find?, hb, hne]

/-- Every overwrite of an initially present binding is warned about,
naming the overwritten function. -/
theorem registerAux_warn :
    ∀ (fs : List ScalarUDF) (reg : Registry) (f g : ScalarUDF),
      f ∈ fs → reg f.name = some g →
      ("Overwrite existing UDF: " ++ g.name) ∈ (registerAux reg fs).2 := by
  intro fs
  induction fs with
  | nil => intro reg f g h; cases h
  | cons f0 rest ih =>
    intro reg f g hmem hreg
    simp only [registerAux, List.mem_append]
    rcases List.mem_cons.mp hmem with rfl | hmem'
    · left
      simp [Registry.registerUDF, hreg]
    · by_cases hname : f.name = f0.name
      · left
        rw [hname] at hreg
        simp [Registry.registerUDF, hreg]
      · right
        apply ih _ f g hmem'
        simp [Registry.registerUDF, hname, hreg]

/-- Registration emits no warning when no name collides. -/
theorem registerAux_warn_nil :
    ∀ (fs : List ScalarUDF) (reg : Registry),
      (fs.map (fun f => f.name)).Nodup → (∀ f ∈ fs, reg f.name = none) →
      (registerAux reg fs).2 = [] := by
  intro fs
  induction fs with
  | nil => intro reg _ _; rfl
  | cons f0 rest ih =>
    intro reg hnodup hfree
    simp only [registerAux]
    have h0 : reg f0.name = none := hfree f0 (List.mem_cons_self _ _)
    simp only [Registry.registerUDF, h0, List.nil_append]
    obtain ⟨h1, h2⟩ :
        (∀ x ∈ rest, ¬ x.name = f0.name)
          ∧ (rest.map (fun f => f.name)).Nodup := by
      simpa using hnodup
    apply ih _ h2
    intro f hf
    have hne : f.name ≠ f0.name := fun h => h1 f hf h
    simp [hne, hfree f (List.mem_cons_of_mem _ hf)]

/-! ## Claim theorems -/

/-- The fixed-signature property of spec §3: between 2 and 4 declared
argument positions, drawn from `{Float64, UInt64}`. -/
abbrev sigOk (s : Signature) : Prop :=
  2 ≤ s.typeSignature.arity ∧ s.typeSignature.arity ≤ 4 ∧
    ∀ t ∈ s.typeSignature.allowedTypes,
      t = DataType.Float64 ∨ t = DataType.UInt64

/-- The nine signature values the wrappers construct all satisfy
`sigOk`. -/
theorem sigOk_all :
    sigOk (Signature.uniform 2 [DataType.Float64] Volatility.Immutable)
  ∧ sigOk (Signature.uniform 3 [DataType.Float64] Volatility.Immutable)
  ∧ sigOk (Signature.uniform 4 [DataType.Float64] Volatility.Immutable)
  ∧ sigOk (Signature.exact [DataType.Float64, DataType.UInt64] Volatility.Immutable)
  ∧ sigOk (Signature.exact [DataType.Float64, DataType.UInt64, DataType.Float64]
      Volatility.Immutable)
  ∧ sigOk (Signature.exact [DataType.UInt64, DataType.Float64] Volatility.Immutable)
  ∧ sigOk (Signature.exact [DataType.UInt64, DataType.Float64, DataType.Float64]
      Volatility.Immutable)
  ∧ sigOk (Signature.uniform 4 [DataType.UInt64] Volatility.Immutable)
  ∧ sigOk (Signature.exact [DataType.UInt64, DataType.UInt64, DataType.Float64]
      Volatility.Immutable) := by
  decide

/-- C6: every function descriptor constructed by the wrappers declares
a fixed signature — an exact or uniform list of argument types drawn
from `{Float64, UInt64}` at fixed positions, with 2 to 4 arguments —
and its declared return type is `Float64` regardless of the argument
types passed to `return_type`. -/
theorem claim_C6_fixed_signatures :
    ∀ (name : String) (argTypes : List DataType),
      (sigOk (Continuous2F.new name).signature
        ∧ Continuous2F.returnType argTypes = .ok DataType.Float64)
    ∧ (sigOk (Continuous3F.new name).signature
        ∧ Continuous3F.returnType argTypes = .ok DataType.Float64)
    ∧ (sigOk (Continuous4F.new name).2
        ∧ Continuous4F.returnType argTypes = .ok DataType.Float64)
    ∧ (sigOk (Continuous1F1U.new name).2
        ∧ Continuous1F1U.returnType argTypes = .ok DataType.Float64)
    ∧ (sigOk (Continuous1F1U1F.new name).2
        ∧ Continuous1F1U1F.returnType argTypes = .ok DataType.Float64)
    ∧ (sigOk (Discrete1U1F.new name).2
        ∧ Discrete1U1F.returnType argTypes = .ok DataType.Float64)
    ∧ (sigOk (Discrete1U2F.new name).signature
        ∧ Discrete1U2F.returnType argTypes = .ok DataType.Float64)
    ∧ (sigOk (Discrete4U.new name).signature
        ∧ Discrete4U.returnType argTypes = .ok DataType.Float64)
    ∧ (sigOk (Discrete2U1F.new name).signature
        ∧ Discrete2U1F.returnType argTypes = .ok DataType.Float64) := by
  intro name argTypes
  exact ⟨⟨sigOk_all.1, rfl⟩, ⟨sigOk_all.2.1, rfl⟩, ⟨sigOk_all.2.2.1, rfl⟩,
    ⟨sigOk_all.2.2.2.1, rfl⟩, ⟨sigOk_all.2.2.2.2.1, rfl⟩,
    ⟨sigOk_all.2.2.2.2.2.1, rfl⟩, ⟨sigOk_all.2.2.2.2.2.2.1, rfl⟩,
    ⟨sigOk_all.2.2.2.2.2.2.2.1, rfl⟩, ⟨sigOk_all.2.2.2.2.2.2.2.2, rfl⟩⟩

/-- C4: every exposed function is deterministic — invoking the same
wrapper (with its fixed evaluator) twice on identical input batches
yields identical outputs, the embedding being a pure function of the
argument columns — and every wrapper advertises itself to the host
engine with `Volatility::Immutable`. -/
theorem claim_C4_deterministic_immutable :
    (∀ (e2 : F → F → Except DataFusionError (Option F)) (a b : List Column),
        a = b → Continuous2F.invokeWithArgs e2 a = Continuous2F.invokeWithArgs e2 b)
  ∧ (∀ (e3 : F → F → F → Except DataFusionError (Option F)) (a b : List Column),
        a = b → Continuous3F.invokeWithArgs e3 a = Continuous3F.invokeWithArgs e3 b)
  ∧ (∀ (e12 : Nat → F → F → Except DataFusionError (Option F)) (a b : List Column),
        a = b → Discrete1U2F.invokeWithArgs e12 a = Discrete1U2F.invokeWithArgs e12 b)
  ∧ (∀ (e4 : Nat → Nat → Nat → Nat → Except DataFusionError (Option F))
        (a b : List Column),
        a = b → Discrete4U.invokeWithArgs e4 a = Discrete4U.invokeWithArgs e4 b)
  ∧ (∀ (e21 : Nat → Nat → F → Except DataFusionError (Option F)) (a b : List Column),
        a = b → Discrete2U1F.invokeWithArgs e21 a = Discrete2U1F.invokeWithArgs e21 b)
  ∧ (∀ name : String,
        (Continuous2F.new name).signature.volatility = .Immutable
      ∧ (Continuous3F.new name).signature.volatility = .Immutable
      ∧ (Continuous4F.new name).2.volatility = .Immutable
      ∧ (Continuous1F1U.new name).2.volatility = .Immutable
      ∧ (Continuous1F1U1F.new name).2.volatility = .Immutable
      ∧ (Discrete1U1F.new name).2.volatility = .Immutable
      ∧ (Discrete1U2F.new name).signature.volatility = .Immutable
      ∧ (Discrete4U.new name).signature.volatility = .Immutable
      ∧ (Discrete2U1F.new name).signature.volatility = .Immutable) :=
  ⟨fun _ _ _ h => by rw [h], fun _ _ _ h => by rw [h], fun _ _ _ h => by rw [h],
   fun _ _ _ h => by rw [h], fun _ _ _ h => by rw [h],
   fun _ => ⟨rfl, rfl, rfl, rfl, rfl, rfl, rfl, rfl, rfl⟩⟩

/-- A sample evaluator used by witnesses: always returns the evaluation
point. -/
def sampleEval2F : F → F → Except DataFusionError (Option F) :=
  fun x _ => .ok (some x)

/-- Witness for C4: the determinism conjunct applied to a concrete
evaluator and batch. -/
theorem claim_C4_witness :
    Continuous2F.invokeWithArgs sampleEval2F [.f64 [some (F.val 1)], .f64 [some (F.val 2)]]
      = Continuous2F.invokeWithArgs sampleEval2F [.f64 [some (F.val 1)], .f64 [some (F.val 2)]] :=
  claim_C4_deterministic_immutable.1 sampleEval2F _ _ rfl

/-- C5: `register` installs each function under its declared name; a
name already present is replaced by the new entry (the last one wins),
a warning naming the overwritten function is emitted, and a duplicate
is never an error — `register` always returns success. -/
theorem claim_C5_register_overwrite_warn :
    ∀ (reg : Registry) (fs : List ScalarUDF),
      (register reg fs).1 = .ok ()
    ∧ (∀ name : String,
        (register reg fs).2.1 name =
          (match fs.reverse.find? (fun f => f.name == name) with
           | some f => some f
           | none => reg name))
    ∧ (∀ f ∈ fs, ∃ g, (register reg fs).2.1 f.name = some g ∧ g.name = f.name)
    ∧ (∀ f g, f ∈ fs → reg f.name = some g →
        ("Overwrite existing UDF: " ++ g.name) ∈ (register reg fs).2.2)
    ∧ ((fs.map (fun f => f.name)).Nodup → (∀ f ∈ fs, reg f.name = none) →
        (register reg fs).2.2 = []) := by
  intro reg fs
  refine ⟨rfl, registerAux_lookup fs reg, ?_, ?_, ?_⟩
  · intro f hf
    have hfind : ∃ g, fs.reverse.find? (fun f' => f'.name == f.name) = some g := by
      have : (fs.reverse.find? (fun f' => f'.name == f.name)).isSome := by
        rw [List.find?_isSome]
        exact ⟨f, List.mem_reverse.mpr hf, by simp⟩
      exact Option.isSome_iff_exists.mp this
    rcases hfind with ⟨g, hg⟩
    refine ⟨g, ?_, ?_⟩
    · rw [show (register reg fs).2.1 = (registerAux reg fs).1 from rfl,
        registerAux_lookup fs reg f.name, hg]
    · have := List.find?_some hg
      exact eq_of_beq this
  · intro f g hf hreg
    exact registerAux_warn fs reg f g hf hreg
  · intro hnodup hfree
    exact registerAux_warn_nil fs reg hnodup hfree

/-- A concrete registry for the C5 witness, holding one binding named
"binomial_pmf". -/
def sampleRegistry : Registry :=
  fun n => if n = "binomial_pmf" then some ⟨"binomial_pmf", (Discrete2U1F.new "binomial_pmf").signature⟩ else none

/-- A concrete descriptor list for the C5 witness, re-registering
"binomial_pmf". -/
def sampleUDFs : List ScalarUDF :=
  [⟨"binomial_pmf", (Discrete2U1F.new "binomial_pmf").signature⟩]

/-- Witness for C5: re-registering an existing name succeeds and emits
the warning naming the overwritten function. -/
theorem claim_C5_witness :
    (register sampleRegistry sampleUDFs).1 = .ok ()
    ∧ ("Overwrite existing UDF: " ++ "binomial_pmf")
        ∈ (register sampleRegistry sampleUDFs).2.2 := by
  refine ⟨(claim_C5_register_overwrite_warn sampleRegistry sampleUDFs).1, ?_⟩
  exact (claim_C5_register_overwrite_warn sampleRegistry sampleUDFs).2.2.2.1
    ⟨"binomial_pmf", (Discrete2U1F.new "binomial_pmf").signature⟩
    ⟨"binomial_pmf", (Discrete2U1F.new "binomial_pmf").signature⟩
    (List.mem_cons_self _ _) rfl

/-- A single fully-present row through `Discrete2U1F`: the output is
the one evaluator result. -/
theorem Discrete2U1F.invoke_single
    (eval : Nat → Nat → F → Except DataFusionError (Option F))
    (x n : Nat) (p : F) :
    Discrete2U1F.invokeWithArgs eval [.u64 [some x], .u64 [some n], .f64 [some p]] =
      some ((eval x n p).map (fun v => [v])) := by
  rw [Discrete2U1F.invoke_eq_2u1f eval [some x] [some n] [some p] rfl rfl]
  simp only [List.zip_cons_cons, List.zip_nil_right, List.map_cons, List.map_nil,
    Discrete2U1F.rowEval, collectResult]
  cases eval x n p <;> rfl

/-- C8: the Binomial example scenario — on a single row with `n = 3`
and `p = 0.25`, `binomial_pmf` at `x = 0` returns `0.421875`,
`binomial_cdf` at `x = 1` returns `0.84375`, and `binomial_sf` at
`x = 1` returns `0.15625`. -/
theorem claim_C8_binomial_example :
    Discrete2U1F.invokeWithArgs binomialPmfEval
        [.u64 [some 0], .u64 [some 3], .f64 [some (F.val 0.25)]]
      = some (.ok [some (F.val 0.421875)])
  ∧ Discrete2U1F.invokeWithArgs binomialCdfEval
        [.u64 [some 1], .u64 [some 3], .f64 [some (F.val 0.25)]]
      = some (.ok [some (F.val 0.84375)])
  ∧ Discrete2U1F.invokeWithArgs binomialSfEval
        [.u64 [some 1], .u64 [some 3], .f64 [some (F.val 0.25)]]
      = some (.ok [some (F.val 0.15625)]) := by
  have hnew : Binomial.new (F.val 0.25) 3 = .ok ⟨(0.25 : ℚ), 3⟩ := by
    simp only [Binomial.new]
    rw [if_neg (by norm_num)]
  refine ⟨?_, ?_, ?_⟩ <;> rw [Discrete2U1F.invoke_single]
  · simp only [binomialPmfEval, PmfEvaluator2U1F.eval, Binomial.make, hnew,
      Except.mapError, Except.map, Binomial.pmf, Binomial.pmfQ]
    norm_num [Nat.choose]
  · simp only [binomialCdfEval, CdfEvaluator2U1F.eval, Binomial.make, hnew,
      Except.mapError, Except.map, Binomial.cdf, Binomial.cdfQ, Binomial.pmfQ]
    norm_num [Nat.choose]
  · simp only [binomialSfEval, SfEvaluator2U1F.eval, Binomial.make, hnew,
      Except.mapError, Except.map, Binomial.sf, Binomial.cdfQ, Binomial.pmfQ]
    norm_num [Nat.choose]

/-- An index at which `get?` succeeds is within bounds. -/
theorem lt_length_of_get?_eq_some {α : Type} {l : List α} {i : ℕ} {a : α}
    (h : l.get? i = some a) : i < l.length := by
  by_contra hlt
  rw [List.get?_eq_none.mpr (Nat.le_of_not_lt hlt)] at h
  cases h

/-- Within bounds, `get?` succeeds. -/
theorem exists_get?_eq_some_of_lt {α : Type} {l : List α} {i : ℕ}
    (h : i < l.length) : ∃ a, l.get? i = some a := by
  cases hc : l.get? i with
  | none => exact absurd (List.get?_eq_none.mp hc) (Nat.not_le_of_lt h)
  | some a => exact ⟨a, rfl⟩

/-- A sample arity-3 continuous evaluator used by witnesses. -/
def sampleEval3F : F → F → F → Except DataFusionError (Option F) :=
  fun x _ _ => .ok (some x)

/-- A sample arity-4 discrete evaluator used by witnesses. -/
def sampleEval4U : Nat → Nat → Nat → Nat → Except DataFusionError (Option F) :=
  fun _ _ _ _ => .ok (some (F.val 0))

/-- C7: when the host engine supplies exactly N argument arrays of the
declared column types and equal lengths, no internal failure point
fires: the casts succeed and the defensive length assertions hold, so
`invoke_with_args` never panics (the result is `some _`). -/
theorem claim_C7_well_typed_no_panic :
    (∀ (eval : F → F → F → Except DataFusionError (Option F)) (xs p1s p2s : List Cell),
        p1s.length = xs.length → p2s.length = xs.length →
        (Continuous3F.invokeWithArgs eval [.f64 xs, .f64 p1s, .f64 p2s]).isSome)
  ∧ (∀ (eval : Nat → Nat → Nat → Nat → Except DataFusionError (Option F))
        (xs p1s p2s p3s : List UCell),
        p1s.length = xs.length → p2s.length = xs.length → p3s.length = xs.length →
        (Discrete4U.invokeWithArgs eval [.u64 xs, .u64 p1s, .u64 p2s, .u64 p3s]).isSome) := by
  constructor
  · intro eval xs p1s p2s h1 h2
    rw [Continuous3F.invoke_eq_3f eval xs p1s p2s h1 h2]
    rfl
  · intro eval xs p1s p2s p3s h1 h2 h3
    rw [Discrete4U.invoke_eq_4u eval xs p1s p2s p3s h1 h2 h3]
    rfl

/-- Witness for C7: both conjuncts at concrete well-typed batches. -/
theorem claim_C7_witness :
    (Continuous3F.invokeWithArgs sampleEval3F
        [.f64 [some (F.val 1), none], .f64 [none, none], .f64 [some F.nan, none]]).isSome
  ∧ (Discrete4U.invokeWithArgs sampleEval4U
        [.u64 [some 1], .u64 [some 2], .u64 [none], .u64 [some 4]]).isSome :=
  ⟨claim_C7_well_typed_no_panic.1 sampleEval3F _ _ _ rfl rfl,
   claim_C7_well_typed_no_panic.2 sampleEval4U _ _ _ _ rfl rfl rfl⟩

/-- C2: for a batch whose row `i` contains a null argument, the output
at row `i` is NaN, no error arises from that row, and all other rows
are exactly what they would be with row `i` absent: the invocation on
the full batch equals the invocation on the batch with row `i` erased,
with NaN re-inserted at position `i`. -/
theorem claim_C2_null_row_nan :
    (∀ (eval : F → F → F → Except DataFusionError (Option F))
        (xs p1s p2s : List Cell) (i : ℕ),
        p1s.length = xs.length → p2s.length = xs.length →
        (xs.get? i = some none ∨ p1s.get? i = some none ∨ p2s.get? i = some none) →
        (∀ out, Continuous3F.invokeWithArgs eval [.f64 xs, .f64 p1s, .f64 p2s]
            = some (.ok out) → out.get? i = some (some F.nan))
        ∧ Continuous3F.invokeWithArgs eval [.f64 xs, .f64 p1s, .f64 p2s]
            = Option.map (Except.map (List.insertIdx i (some F.nan)))
                (Continuous3F.invokeWithArgs eval
                  [.f64 (xs.eraseIdx i), .f64 (p1s.eraseIdx i), .f64 (p2s.eraseIdx i)]))
  ∧ (∀ (eval : Nat → Nat → Nat → Nat → Except DataFusionError (Option F))
        (xs p1s p2s p3s : List UCell) (i : ℕ),
        p1s.length = xs.length → p2s.length = xs.length → p3s.length = xs.length →
        (xs.get? i = some none ∨ p1s.get? i = some none ∨ p2s.get? i = some none
          ∨ p3s.get? i = some none) →
        (∀ out, Discrete4U.invokeWithArgs eval [.u64 xs, .u64 p1s, .u64 p2s, .u64 p3s]
            = some (.ok out) → out.get? i = some (some F.nan))
        ∧ Discrete4U.invokeWithArgs eval [.u64 xs, .u64 p1s, .u64 p2s, .u64 p3s]
            = Option.map (Except.map (List.insertIdx i (some F.nan)))
                (Discrete4U.invokeWithArgs eval
                  [.u64 (xs.eraseIdx i), .u64 (p1s.eraseIdx i), .u64 (p2s.eraseIdx i),
                   .u64 (p3s.eraseIdx i)])) := by
  constructor
  · intro eval xs p1s p2s i h1 h2 hnull
    have hi : i < xs.length := by
      rcases hnull with h | h | h
      · exact lt_length_of_get?_eq_some h
      · exact h1 ▸ lt_length_of_get?_eq_some h
      · exact h2 ▸ lt_length_of_get?_eq_some h
    obtain ⟨cx, hcx⟩ := exists_get?_eq_some_of_lt (l := xs) hi
    obtain ⟨c1, hc1⟩ := exists_get?_eq_some_of_lt (l := p1s) (h1.symm ▸ hi)
    obtain ⟨c2, hc2⟩ := exists_get?_eq_some_of_lt (l := p2s) (h2.symm ▸ hi)
    have hnull' : cx = none ∨ c1 = none ∨ c2 = none := by
      rcases hnull with h | h | h
      · exact Or.inl (Option.some.inj (hcx ▸ h))
      · exact Or.inr (Or.inl (Option.some.inj (hc1 ▸ h)))
      · exact Or.inr (Or.inr (Option.some.inj (hc2 ▸ h)))
    have hR : ((xs.zip p1s).zip p2s).get? i = some ((cx, c1), c2) := by
      rw [List.get?_zip_eq_some]
      exact ⟨by rw [List.get?_zip_eq_some]; exact ⟨hcx, hc1⟩, hc2⟩
    have hrow := Continuous3F.rowEval_null_3f eval cx c1 c2 hnull'
    have key := collectResult_map_eraseIdx (f := Continuous3F.rowEval eval) hR hrow
    constructor
    · intro out hout
      rw [Continuous3F.invoke_eq_3f eval xs p1s p2s h1 h2] at hout
      have hcoll := Option.some.inj hout
      rw [collectResult_eq_ok_iff] at hcoll
      have hmi := congrArg (fun l => l.get? i) hcoll
      simp only [List.get?_map, hR, Option.map_some'] at hmi
      rw [hrow] at hmi
      cases ho : out.get? i with
      | none => rw [ho] at hmi; simp at hmi
      | some c =>
        rw [ho] at hmi
        simp only [Option.map_some'] at hmi
        have := Except.ok.inj (Option.some.inj hmi)
        exact congrArg some this.symm
    · have hlen1 : (p1s.eraseIdx i).length = (xs.eraseIdx i).length := by
        simp [List.length_eraseIdx, h1, h2]
      have hlen2 : (p2s.eraseIdx i).length = (xs.eraseIdx i).length := by
        simp [List.length_eraseIdx, h1, h2]
      rw [Continuous3F.invoke_eq_3f eval xs p1s p2s h1 h2,
        Continuous3F.invoke_eq_3f eval _ _ _ hlen1 hlen2]
      have hz1 : (xs.zip p1s).length = p2s.length := by
        rw [List.length_zip, h1, h2]
        exact Nat.min_self _
      have hzip : ((xs.zip p1s).zip p2s).eraseIdx i
          = ((xs.eraseIdx i).zip (p1s.eraseIdx i)).zip (p2s.eraseIdx i) := by
        rw [zip_eraseIdx i (xs.zip p1s) p2s hz1, zip_eraseIdx i xs p1s h1.symm]
      rw [Option.map_some']
      rw [← hzip]
      exact congrArg some key
  · intro eval xs p1s p2s p3s i h1 h2 h3 hnull
    have hi : i < xs.length := by
      rcases hnull with h | h | h | h
      · exact lt_length_of_get?_eq_some h
      · exact h1 ▸ lt_length_of_get?_eq_some h
      · exact h2 ▸ lt_length_of_get?_eq_some h
      · exact h3 ▸ lt_length_of_get?_eq_some h
    obtain ⟨cx, hcx⟩ := exists_get?_eq_some_of_lt (l := xs) hi
    obtain ⟨c1, hc1⟩ := exists_get?_eq_some_of_lt (l := p1s) (h1.symm ▸ hi)
    obtain ⟨c2, hc2⟩ := exists_get?_eq_some_of_lt (l := p2s) (h2.symm ▸ hi)
    obtain ⟨c3, hc3⟩ := exists_get?_eq_some_of_lt (l := p3s) (h3.symm ▸ hi)
    have hnull' : cx = none ∨ c1 = none ∨ c2 = none ∨ c3 = none := by
      rcases hnull with h | h | h | h
      · exact Or.inl (Option.some.inj (hcx ▸ h))
      · exact Or.inr (Or.inl (Option.some.inj (hc1 ▸ h)))
      · exact Or.inr (Or.inr (Or.inl (Option.some.inj (hc2 ▸ h))))
      · exact Or.inr (Or.inr (Or.inr (Option.some.inj (hc3 ▸ h))))
    have hR : (((xs.zip p1s).zip p2s).zip p3s).get? i = some (((cx, c1), c2), c3) := by
      rw [List.get?_zip_eq_some]
      refine ⟨?_, hc3⟩
      rw [List.get?_zip_eq_some]
      exact ⟨by rw [List.get?_zip_eq_some]; exact ⟨hcx, hc1⟩, hc2⟩
    have hrow := Discrete4U.rowEval_null_4u eval cx c1 c2 c3 hnull'
    have key := collectResult_map_eraseIdx (f := Discrete4U.rowEval eval) hR hrow
    constructor
    · intro out hout
      rw [Discrete4U.invoke_eq_4u eval xs p1s p2s p3s h1 h2 h3] at hout
      have hcoll := Option.some.inj hout
      rw [collectResult_eq_ok_iff] at hcoll
      have hmi := congrArg (fun l => l.get? i) hcoll
      simp only [List.get?_map, hR, Option.map_some'] at hmi
      rw [hrow] at hmi
      cases ho : out.get? i with
      | none => rw [ho] at hmi; simp at hmi
      | some c =>
        rw [ho] at hmi
        simp only [Option.map_some'] at hmi
        have := Except.ok.inj (Option.some.inj hmi)
        exact congrArg some this.symm
    · have hlen1 : (p1s.eraseIdx i).length = (xs.eraseIdx i).length := by
        simp [List.length_eraseIdx, h1, h2, h3]
      have hlen2 : (p2s.eraseIdx i).length = (xs.eraseIdx i).length := by
        simp [List.length_eraseIdx, h1, h2, h3]
      have hlen3 : (p3s.eraseIdx i).length = (xs.eraseIdx i).length := by
        simp [List.length_eraseIdx, h1, h2, h3]
      rw [Discrete4U.invoke_eq_4u eval xs p1s p2s p3s h1 h2 h3,
        Discrete4U.invoke_eq_4u eval _ _ _ _ hlen1 hlen2 hlen3]
      have hz1 : (xs.zip p1s).length = p2s.length := by
        rw [List.length_zip, h1, h2]
        exact Nat.min_self _
      have hz2 : ((xs.zip p1s).zip p2s).length = p3s.length := by
        rw [List.length_zip, hz1, h3, ← h2, Nat.min_self]
      have hzip : ((((xs.zip p1s).zip p2s).zip p3s)).eraseIdx i
          = (((xs.eraseIdx i).zip (p1s.eraseIdx i)).zip (p2s.eraseIdx i)).zip
              (p3s.eraseIdx i) := by
        rw [zip_eraseIdx i ((xs.zip p1s).zip p2s) p3s hz2,
          zip_eraseIdx i (xs.zip p1s) p2s hz1, zip_eraseIdx i xs p1s h1.symm]
      rw [Option.map_some']
      rw [← hzip]
      exact congrArg some key

/-- Witness for C2: a three-row batch whose middle row has a null
parameter; erasing that row and re-inserting NaN reproduces the full
invocation. -/
theorem claim_C2_witness :
    Continuous3F.invokeWithArgs sampleEval3F
        [.f64 [some (F.val 1), some (F.val 2), some (F.val 3)],
         .f64 [some (F.val 4), none, some (F.val 6)],
         .f64 [some (F.val 7), some (F.val 8), some (F.val 9)]]
        = Option.map (Except.map (List.insertIdx 1 (some F.nan)))
            (Continuous3F.invokeWithArgs sampleEval3F
              [.f64 ([some (F.val 1), some (F.val 2), some (F.val 3)].eraseIdx 1),
               .f64 ([some (F.val 4), none, some (F.val 6)].eraseIdx 1),
               .f64 ([some (F.val 7), some (F.val 8), some (F.val 9)].eraseIdx 1)]) :=
  (claim_C2_null_row_nan.1 sampleEval3F
    [some (F.val 1), some (F.val 2), some (F.val 3)]
    [some (F.val 4), none, some (F.val 6)]
    [some (F.val 7), some (F.val 8), some (F.val 9)]
    1 rfl rfl (Or.inr (Or.inl rfl))).2

/-- A sample arity-2 continuous evaluator for the C3 witness. -/
def sampleEval2Fb : F → F → Except DataFusionError (Option F) :=
  fun x _ => .ok (some x)

/-- C3: a successful invocation returns one `Float64` array of the
common input length whose entry at `i` is a function of only the input
cells at `i`; consequently evaluating any permutation of the rows
yields exactly the permutation of the original output. -/
theorem claim_C3_rowwise_order_preserving :
    ∀ (eval : F → F → Except DataFusionError (Option F)) (xs ps out : List Cell),
      ps.length = xs.length →
      Continuous2F.invokeWithArgs eval [.f64 xs, .f64 ps] = some (.ok out) →
      out.length = xs.length
      ∧ (∀ i cx cp, xs.get? i = some cx → ps.get? i = some cp →
          ∃ v, Continuous2F.rowEval eval (cx, cp) = .ok v ∧ out.get? i = some v)
      ∧ (∀ π : List ℕ, π.Perm (List.range xs.length) →
          Continuous2F.invokeWithArgs eval
              [.f64 (π.map (fun j => xs.getD j none)),
               .f64 (π.map (fun j => ps.getD j none))]
            = some (.ok (π.map (fun j => out.getD j none)))) := by
  intro eval xs ps out hlen hout
  rw [Continuous2F.invoke_eq_2f eval xs ps hlen] at hout
  have hcoll : collectResult ((xs.zip ps).map (Continuous2F.rowEval eval)) = .ok out :=
    Option.some.inj hout
  have hmap := (collectResult_eq_ok_iff _ _).mp hcoll
  have hlzip : (xs.zip ps).length = xs.length := by
    rw [List.length_zip, hlen, Nat.min_self]
  have hlo : out.length = xs.length := by
    have hml := congrArg List.length hmap
    simp only [List.length_map] at hml
    rw [← hml, hlzip]
  have hpt : ∀ i cx cp, xs.get? i = some cx → ps.get? i = some cp →
      ∃ v, Continuous2F.rowEval eval (cx, cp) = .ok v ∧ out.get? i = some v := by
    intro i cx cp hcx hcp
    have hR : (xs.zip ps).get? i = some (cx, cp) := by
      rw [List.get?_zip_eq_some]
      exact ⟨hcx, hcp⟩
    have hmi := congrArg (fun l => l.get? i) hmap
    simp only [List.get?_map, hR, Option.map_some'] at hmi
    cases ho : out.get? i with
    | none => rw [ho] at hmi; simp at hmi
    | some v =>
      rw [ho] at hmi
      simp only [Option.map_some'] at hmi
      exact ⟨v, Option.some.inj hmi, rfl⟩
  refine ⟨hlo, hpt, ?_⟩
  intro π hperm
  have hmem : ∀ j ∈ π, j < xs.length := fun j hj =>
    List.mem_range.mp (hperm.mem_iff.mp hj)
  have hlen' : (π.map (fun j => ps.getD j none)).length
      = (π.map (fun j => xs.getD j none)).length := by simp
  rw [Continuous2F.invoke_eq_2f eval _ _ hlen']
  rw [List.zip_map' (fun j => xs.getD j none) (fun j => ps.getD j none) π]
  refine congrArg some ?_
  rw [collectResult_eq_ok_iff, List.map_map, List.map_map]
  apply List.map_congr_left
  intro j hj
  have hjlt := hmem j hj
  obtain ⟨cx, hcx⟩ := exists_get?_eq_some_of_lt (l := xs) hjlt
  obtain ⟨cp, hcp⟩ := exists_get?_eq_some_of_lt (l := ps) (hlen.symm ▸ hjlt)
  obtain ⟨v, hv, ho⟩ := hpt j cx cp hcx hcp
  simp only [Function.comp, List.getD, hcx, hcp, ho, Option.getD_some]
  exact hv

/-- Witness for C3: permuting a two-row batch permutes the output. -/
theorem claim_C3_witness :
    Continuous2F.invokeWithArgs sampleEval2Fb
        [.f64 ([1, 0].map (fun j => [some (F.val 1), none].getD j none)),
         .f64 ([1, 0].map (fun j => [some (F.val 2), some (F.val 3)].getD j none))]
      = some (.ok ([1, 0].map (fun j => [some (F.val 1), some F.nan].getD j none))) :=
  (claim_C3_rowwise_order_preserving sampleEval2Fb
    [some (F.val 1), none] [some (F.val 2), some (F.val 3)]
    [some (F.val 1), some F.nan] rfl rfl).2.2 [1, 0] (by decide)

/-- Every error the Gamma pdf evaluator can produce through a row of
`Continuous3F` is the `External` wrapping of a Gamma validation
error. -/
theorem gammaPdf_rowEval_error_shape (pdf : Gamma → F → F)
    (r : (Cell × Cell) × Cell) (e : DataFusionError)
    (h : Continuous3F.rowEval (PdfEvaluator3F.eval Gamma.make pdf) r = .error e) :
    ∃ ge : GammaError, e = .External (.gamma ge) := by
  obtain ⟨⟨cx, c1⟩, c2⟩ := r
  cases cx with
  | none => cases c1 <;> cases c2 <;> cases h
  | some x =>
    cases c1 with
    | none => cases c2 <;> cases h
    | some a =>
      cases c2 with
      | none => cases h
      | some b =>
        have h' : PdfEvaluator3F.eval Gamma.make pdf x a b = .error e := h
        cases hn : Gamma.new a b with
        | ok d =>
          rw [PdfEvaluator3F.eval, show Gamma.make a b = .ok d by
            rw [Gamma.make, hn]; rfl] at h'
          cases h'
        | error ge =>
          rw [PdfEvaluator3F.eval, show Gamma.make a b
              = .error (.External (.gamma ge)) by rw [Gamma.make, hn]; rfl] at h'
          exact ⟨ge, (Except.error.inj h').symm⟩

/-- C1: if some row of the batch has all three values present and the
Gamma factory rejects that row's parameters, the whole invocation
returns an error — no output column is produced — and the error is
`DataFusionError::External` wrapping a Gamma-specific validation
error. -/
theorem claim_C1_validation_failure_aborts_batch :
    ∀ (pdf : Gamma → F → F) (xs p1s p2s : List Cell),
      p1s.length = xs.length → p2s.length = xs.length →
      (∃ i x a b e, xs.get? i = some (some x) ∧ p1s.get? i = some (some a)
        ∧ p2s.get? i = some (some b) ∧ Gamma.new a b = .error e) →
      ∃ ge : GammaError,
        Continuous3F.invokeWithArgs (PdfEvaluator3F.eval Gamma.make pdf)
            [.f64 xs, .f64 p1s, .f64 p2s]
          = some (.error (.External (.gamma ge))) := by
  intro pdf xs p1s p2s h1 h2 hbad
  obtain ⟨i, x, a, b, e, hx, ha, hb, herr⟩ := hbad
  rw [Continuous3F.invoke_eq_3f _ xs p1s p2s h1 h2]
  have hR : ((xs.zip p1s).zip p2s).get? i = some ((some x, some a), some b) := by
    rw [List.get?_zip_eq_some]
    exact ⟨by rw [List.get?_zip_eq_some]; exact ⟨hx, ha⟩, hb⟩
  have hrowerr : Continuous3F.rowEval (PdfEvaluator3F.eval Gamma.make pdf)
      ((some x, some a), some b) = .error (.External (.gamma e)) := by
    show PdfEvaluator3F.eval Gamma.make pdf x a b = _
    rw [PdfEvaluator3F.eval, show Gamma.make a b = .error (.External (.gamma e)) by
      rw [Gamma.make, herr]; rfl]
  have hmem : Except.error (DataFusionError.External (.gamma e))
      ∈ ((xs.zip p1s).zip p2s).map
          (Continuous3F.rowEval (PdfEvaluator3F.eval Gamma.make pdf)) := by
    apply List.get?_mem (n := i)
    simp only [List.get?_map, hR, Option.map_some', hrowerr]
  cases hc : collectResult (((xs.zip p1s).zip p2s).map
      (Continuous3F.rowEval (PdfEvaluator3F.eval Gamma.make pdf))) with
  | ok out => exact absurd hc (collectResult_ne_ok_of_mem_error hmem out)
  | error e' =>
    have hmem' := error_mem_of_collectResult_eq_error hc
    rcases List.mem_map.mp hmem' with ⟨r, _, hre⟩
    obtain ⟨ge, hge⟩ := gammaPdf_rowEval_error_shape pdf r e' hre
    exact ⟨ge, by rw [hge]⟩

/-- Witness for C1: a two-row batch whose second row carries a
non-positive Gamma shape parameter. -/
theorem claim_C1_witness :
    ∃ ge : GammaError,
      Continuous3F.invokeWithArgs
          (PdfEvaluator3F.eval Gamma.make (fun _ _ => F.val 0))
          [.f64 [some (F.val 1), some (F.val 2)],
           .f64 [some (F.val 1), some (F.val (-3))],
           .f64 [some (F.val 1), some (F.val 4)]]
        = some (.error (.External (.gamma ge))) :=
  claim_C1_validation_failure_aborts_batch (fun _ _ => F.val 0)
    [some (F.val 1), some (F.val 2)]
    [some (F.val 1), some (F.val (-3))]
    [some (F.val 1), some (F.val 4)] rfl rfl
    ⟨1, F.val 2, F.val (-3), F.val 4, GammaError.shapeInvalid, rfl, rfl, rfl,
      by rw [Gamma.new]; rw [if_pos (by norm_num)]⟩

/-- Inversion of `Continuous3F::invoke_with_args`: any non-panicking
invocation went through three successfully cast columns and returned
the collected row map. -/
theorem Continuous3F.invoke_inv_3f
    {eval : F → F → F → Except DataFusionError (Option F)}
    {args : List Column} {res : Except DataFusionError (List Cell)}
    (h : Continuous3F.invokeWithArgs eval args = some res) :
    ∃ xs p1s p2s : List Cell,
      res = collectResult (((xs.zip p1s).zip p2s).map (Continuous3F.rowEval eval)) := by
  simp only [Continuous3F.invokeWithArgs, Option.bind_eq_bind, Option.bind_eq_some] at h
  obtain ⟨xs, _, p1s, _, p2s, _, hif⟩ := h
  split at hif
  · exact ⟨xs, p1s, p2s, (Option.some.inj hif).symm⟩
  · cases hif

/-- Inversion of `Discrete1U2F::invoke_with_args`. -/
theorem Discrete1U2F.invoke_inv_1u2f
    {eval : Nat → F → F → Except DataFusionError (Option F)}
    {args : List Column} {res : Except DataFusionError (List Cell)}
    (h : Discrete1U2F.invokeWithArgs eval args = some res) :
    ∃ (xs : List UCell) (p1s p2s : List Cell),
      res = collectResult (((xs.zip p1s).zip p2s).map (Discrete1U2F.rowEval eval)) := by
  simp only [Discrete1U2F.invokeWithArgs, Option.bind_eq_bind, Option.bind_eq_some] at h
  obtain ⟨xs, _, p1s, _, p2s, _, hif⟩ := h
  split at hif
  · exact ⟨xs, p1s, p2s, (Option.some.inj hif).symm⟩
  · cases hif

/-- Inversion of `Continuous2F::invoke_with_args`. -/
theorem Continuous2F.invoke_inv_2f
    {eval : F → F → Except DataFusionError (Option F)}
    {args : List Column} {res : Except DataFusionError (List Cell)}
    (h : Continuous2F.invokeWithArgs eval args = some res) :
    ∃ xs ps : List Cell,
      res = collectResult ((xs.zip ps).map (Continuous2F.rowEval eval)) := by
  simp only [Continuous2F.invokeWithArgs, Option.bind_eq_bind, Option.bind_eq_some] at h
  obtain ⟨xs, _, ps, _, hif⟩ := h
  split at hif
  · exact ⟨xs, ps, (Option.some.inj hif).symm⟩
  · cases hif

/-- A row of `Continuous3F` that evaluates to an error is fully
present, and the error is the evaluator's own. -/
theorem Continuous3F.rowEval_error_3f
    (eval : F → F → F → Except DataFusionError (Option F))
    (r : (Cell × Cell) × Cell) (e : DataFusionError)
    (h : Continuous3F.rowEval eval r = .error e) :
    ∃ x p1 p2, r = ((some x, some p1), some p2) ∧ eval x p1 p2 = .error e := by
  obtain ⟨⟨cx, c1⟩, c2⟩ := r
  cases cx <;> cases c1 <;> cases c2 <;>
    first
      | cases h
      | exact ⟨_, _, _, rfl, h⟩

/-- A row of `Discrete1U2F` that evaluates to an error is fully
present, and the error is the evaluator's own. -/
theorem Discrete1U2F.rowEval_error_1u2f
    (eval : Nat → F → F → Except DataFusionError (Option F))
    (r : (UCell × Cell) × Cell) (e : DataFusionError)
    (h : Discrete1U2F.rowEval eval r = .error e) :
    ∃ x p1 p2, r = ((some x, some p1), some p2) ∧ eval x p1 p2 = .error e := by
  obtain ⟨⟨cx, c1⟩, c2⟩ := r
  cases cx <;> cases c1 <;> cases c2 <;>
    first
      | cases h
      | exact ⟨_, _, _, rfl, h⟩

/-- A successful row of `Continuous2F` is either the NaN produced for a
null row or a value produced by the evaluator on present inputs. -/
theorem Continuous2F.rowEval_ok
    (eval : F → F → Except DataFusionError (Option F))
    (r : Cell × Cell) (v : Option F)
    (h : Continuous2F.rowEval eval r = .ok v) :
    v = some F.nan ∨ ∃ x p, eval x p = .ok v := by
  obtain ⟨cx, cp⟩ := r
  cases cx <;> cases cp
  · exact Or.inl (Except.ok.inj h).symm
  · exact Or.inl (Except.ok.inj h).symm
  · exact Or.inl (Except.ok.inj h).symm
  · exact Or.inr ⟨_, _, h⟩

/-- C9: the evaluator — and hence parameter validation — runs only on
rows whose arguments are all present: a row containing a null produces
NaN independently of the evaluator (even when its present values are
out of the mathematical domain), and any batch-level error can only
originate from a fully present row handed to the evaluator. -/
theorem claim_C9_validation_only_on_present_rows :
    (∀ (eval eval' : F → F → F → Except DataFusionError (Option F))
        (r : (Cell × Cell) × Cell),
        (r.1.1 = none ∨ r.1.2 = none ∨ r.2 = none) →
        Continuous3F.rowEval eval r = .ok (some F.nan)
        ∧ Continuous3F.rowEval eval r = Continuous3F.rowEval eval' r)
  ∧ (∀ (eval : F → F → F → Except DataFusionError (Option F))
        (args : List Column) (e : DataFusionError),
        Continuous3F.invokeWithArgs eval args = some (.error e) →
        ∃ x p1 p2, eval x p1 p2 = .error e)
  ∧ (∀ (eval eval' : Nat → F → F → Except DataFusionError (Option F))
        (r : (UCell × Cell) × Cell),
        (r.1.1 = none ∨ r.1.2 = none ∨ r.2 = none) →
        Discrete1U2F.rowEval eval r = .ok (some F.nan)
        ∧ Discrete1U2F.rowEval eval r = Discrete1U2F.rowEval eval' r)
  ∧ (∀ (eval : Nat → F → F → Except DataFusionError (Option F))
        (args : List Column) (e : DataFusionError),
        Discrete1U2F.invokeWithArgs eval args = some (.error e) →
        ∃ x p1 p2, eval x p1 p2 = .error e) := by
  refine ⟨?_, ?_, ?_, ?_⟩
  · intro eval eval' r hnull
    obtain ⟨⟨cx, c1⟩, c2⟩ := r
    have h1 := Continuous3F.rowEval_null_3f eval cx c1 c2 hnull
    have h2 := Continuous3F.rowEval_null_3f eval' cx c1 c2 hnull
    exact ⟨h1, by rw [h1, h2]⟩
  · intro eval args e h
    obtain ⟨xs, p1s, p2s, hres⟩ := Continuous3F.invoke_inv_3f h
    have hmem := error_mem_of_collectResult_eq_error hres.symm
    rcases List.mem_map.mp hmem with ⟨r, _, hre⟩
    obtain ⟨x, p1, p2, _, he⟩ := Continuous3F.rowEval_error_3f eval r e hre
    exact ⟨x, p1, p2, he⟩
  · intro eval eval' r hnull
    obtain ⟨⟨cx, c1⟩, c2⟩ := r
    have h1 := Discrete1U2F.rowEval_null_1u2f eval cx c1 c2 hnull
    have h2 := Discrete1U2F.rowEval_null_1u2f eval' cx c1 c2 hnull
    exact ⟨h1, by rw [h1, h2]⟩
  · intro eval args e h
    obtain ⟨xs, p1s, p2s, hres⟩ := Discrete1U2F.invoke_inv_1u2f h
    have hmem := error_mem_of_collectResult_eq_error hres.symm
    rcases List.mem_map.mp hmem with ⟨r, _, hre⟩
    obtain ⟨x, p1, p2, _, he⟩ := Discrete1U2F.rowEval_error_1u2f eval r e hre
    exact ⟨x, p1, p2, he⟩

/-- Witness for C9: a null row whose present parameter is far outside
the Gamma domain still yields NaN, for two different evaluators. -/
theorem claim_C9_witness :
    Continuous3F.rowEval (PdfEvaluator3F.eval Gamma.make (fun _ _ => F.val 0))
        ((none, some (F.val (-5))), some (F.val (-7))) = .ok (some F.nan)
    ∧ Continuous3F.rowEval (PdfEvaluator3F.eval Gamma.make (fun _ _ => F.val 0))
        ((none, some (F.val (-5))), some (F.val (-7)))
      = Continuous3F.rowEval sampleEval3F ((none, some (F.val (-5))), some (F.val (-7))) :=
  claim_C9_validation_only_on_present_rows.1
    (PdfEvaluator3F.eval Gamma.make (fun _ _ => F.val 0)) sampleEval3F
    ((none, some (F.val (-5))), some (F.val (-7))) (Or.inl rfl)

/-- C10: on success the output column contains no null entry — every
concrete evaluator returns a present value, and the wrapper maps null
rows to the present NaN value, so every output cell is a valid 64-bit
float. -/
theorem claim_C10_output_has_no_nulls :
    (∀ (D : Type) (make : F → Except DataFusionError D) (pdf : D → F → F) (x p : F),
        PdfEvaluator2F.eval make pdf x p ≠ .ok none)
  ∧ (∀ (D : Type) (make : F → Except DataFusionError D) (cdf : D → F → F) (x p : F),
        CdfEvaluator2F.eval make cdf x p ≠ .ok none)
  ∧ (∀ (D : Type) (make : F → Except DataFusionError D) (sf : D → F → F) (x p : F),
        SfEvaluator2F.eval make sf x p ≠ .ok none)
  ∧ (∀ (eval : F → F → Except DataFusionError (Option F)) (args : List Column)
        (out : List Cell),
        (∀ x p, eval x p ≠ .ok none) →
        Continuous2F.invokeWithArgs eval args = some (.ok out) →
        ∀ c ∈ out, c.isSome) := by
  refine ⟨?_, ?_, ?_, ?_⟩
  · intro D make pdf x p h
    rw [PdfEvaluator2F.eval] at h
    cases hm : make p <;> rw [hm] at h <;> cases h
  · intro D make cdf x p h
    rw [CdfEvaluator2F.eval] at h
    cases hm : make p <;> rw [hm] at h <;> cases h
  · intro D make sf x p h
    rw [SfEvaluator2F.eval] at h
    cases hm : make p <;> rw [hm] at h <;> cases h
  · intro eval args out heval hinv c hc
    obtain ⟨xs, ps, hres⟩ := Continuous2F.invoke_inv_2f hinv
    have hmap := (collectResult_eq_ok_iff _ _).mp hres.symm
    have hmem : Except.ok c ∈ (xs.zip ps).map (Continuous2F.rowEval eval) := by
      rw [hmap]
      exact List.mem_map_of_mem Except.ok hc
    rcases List.mem_map.mp hmem with ⟨r, _, hre⟩
    rcases Continuous2F.rowEval_ok eval r c hre with hnan | ⟨x, p, hxp⟩
    · rw [hnan]; rfl
    · cases c with
      | none => exact absurd hxp (heval x p)
      | some v => rfl

/-- Witness for C10: the no-null-output conjunct at a concrete batch
containing a null row, checked on both output cells. -/
theorem claim_C10_witness :
    (some (F.val 1) : Cell).isSome ∧ (some F.nan : Cell).isSome :=
  ⟨claim_C10_output_has_no_nulls.2.2.2 sampleEval2F
      [.f64 [some (F.val 1), none], .f64 [some (F.val 2), some (F.val 3)]]
      [some (F.val 1), some F.nan]
      (fun _ _ h => by cases h) rfl (some (F.val 1)) (by simp),
   claim_C10_output_has_no_nulls.2.2.2 sampleEval2F
      [.f64 [some (F.val 1), none], .f64 [some (F.val 2), some (F.val 3)]]
      [some (F.val 1), some F.nan]
      (fun _ _ h => by cases h) rfl (some F.nan) (by simp)⟩

end DFStatrs
